import Mathlib

/-!
Verification of the rotary-embedding and attention-masking core of the
VisionLLaMA_AR repository (`src/deit/my_models.py`, `src/deit/my_py/test.py`).

Tensors are modelled as functions from index tuples to values; the batch axis,
which every operation treats as a parallel axis, is modelled one element at a
time.  Additive attention-mask entries, which in the source are the two float
constants `0.` and `float('-inf')`, are modelled by the two-element type
`MaskVal` so that mask algebra stays decidable.  Complex frequency-table
entries (`torch.polar(1, θ) = e^{iθ}`) are modelled in `ℂ`.
-/

namespace VisionLLaMA

/-- An additive attention-mask entry: the source writes `0.` for a visible
position and `float('-inf')` for a masked one. -/
inductive MaskVal where
  | zero
  | negInf
deriving DecidableEq, Repr

/-! ## GSAttention grouped/downsampled causal mask
Embeds `GSAttention.forward`, `src/deit/my_models.py` lines 682-699 (the
`casual_attn` branch), identical to the active code of
`src/deit/my_py/test.py` lines 23-44. -/

/-- Number of visible reduced keys for query flat index `i` on an `H`-high
grid with reduction factor `srRatio`.  From the source:
`x_pos = i // (sr_ratio * H)`; `origin_x = i // H`; `origin_y = i % H`;
`flat_patch_pos_for_y = origin_x + origin_y * H`;
`y_pos = flat_patch_pos_for_y // (sr_ratio * H)`;
`token_visible_num = x_pos * sr_ratio + y_pos + 1`. -/
def gsaTokenVisibleNum (srRatio H i : ℕ) : ℕ :=
  let xPos := i / (srRatio * H)
  let originX := i / H
  let originY := i % H
  let flatForY := originX + originY * H
  let yPos := flatForY / (srRatio * H)
  xPos * srRatio + yPos + 1

/-- The grouped causal mask of `GSAttention.forward`: the row for query `i` is
initialised to `-inf` and the first `token_visible_num[i]` reduced-key columns
are set to `0` (`col_indices < token_visible_num.unsqueeze(1)`). -/
def gsaCausalMask (srRatio H : ℕ) (i j : ℕ) : MaskVal :=
  if j < gsaTokenVisibleNum srRatio H i then .zero else .negInf

/-- Direct enumeration of the visible reduced keys in row `i` of the grouped
causal mask, over the `nReduce` key columns the source allocates. -/
def gsaVisibleCount (srRatio H nReduce i : ℕ) : ℕ :=
  ((List.range nReduce).filter (fun j => gsaCausalMask srRatio H i j = MaskVal.zero)).length

/-! ## RAttention 2D raster ("quadrant") causal mask
Embeds `RAttention.__init__`, `src/deit/my_models.py` lines 334-360.  The
source takes `H = token_num ** 0.5` and computes `x_pos = i // H`,
`y_pos = i % H` with exact float arithmetic on a perfect-square `token_num`;
we model the grid side directly as the natural number `H`. -/

/-- The list of visible positions for query `i`: the source appends
`row * H + col` for `row in range(x_pos + 1)`, `col in range(y_pos + 1)`. -/
def rattnVisiblePos (H i : ℕ) : List ℕ :=
  (List.range (i / H + 1)).flatMap
    (fun row => (List.range (i % H + 1)).map (fun col => row * H + col))

/-- The cached `casual_mask` of `RAttention` with `casual_attn_2d=True` and
`use_cls_token=False`: initialised to `-inf`, then the positions enumerated in
`total_visible_pos[i]` are set to `0`. -/
def rattnCasualMask2d (H : ℕ) (i j : ℕ) : MaskVal :=
  if j ∈ rattnVisiblePos H i then .zero else .negInf

/-- Membership in the visible-position list is exactly the top-left-quadrant
condition. -/
theorem rattnVisiblePos_mem (H i j : ℕ) (hH : 0 < H) :
    j ∈ rattnVisiblePos H i ↔ j / H ≤ i / H ∧ j % H ≤ i % H := by
  unfold rattnVisiblePos
  simp only [List.mem_flatMap, List.mem_map, List.mem_range]
  constructor
  · rintro ⟨row, hrow, col, hcol, rfl⟩
    have hcolH : col < H := lt_of_le_of_lt (Nat.lt_succ_iff.mp hcol) (Nat.mod_lt _ hH)
    constructor
    · have hdiv : (row * H + col) / H = row := by
        rw [Nat.mul_comm, Nat.mul_add_div hH, Nat.div_eq_of_lt hcolH, Nat.add_zero]
      rw [hdiv]; exact Nat.lt_succ_iff.mp hrow
    · have hmod : (row * H + col) % H = col := by
        rw [Nat.add_comm, Nat.add_mul_mod_self_right, Nat.mod_eq_of_lt hcolH]
      rw [hmod]; exact Nat.lt_succ_iff.mp hcol
  · rintro ⟨h1, h2⟩
    refine ⟨j / H, Nat.lt_succ_of_le h1, j % H, Nat.lt_succ_of_le h2, ?_⟩
    rw [Nat.mul_comm]; exact Nat.div_add_mod j H

end VisionLLaMA

namespace VisionLLaMA

/-- C1: in `GSAttention.forward` with `casual_attn=True` on a square `H×W`
grid, the causal-mask row for query `i` assigns `0` exactly to reduced-key
indices `j < x_block * sr_ratio + y_block + 1` where
`x_block = i / (sr_ratio * H)` and `y_block = (i / H + (i % H) * H) / (sr_ratio * H)`,
and `-inf` to all others; and for `H = W = 4`, `sr_ratio = 2` the visible
count for query flat index 5 matches direct enumeration of the mask row (the
golden regression value 1). -/
theorem c1_gsa_causal_mask_visibility :
    (∀ srRatio H i j, 0 < srRatio → 0 < H → i < H * H → j < H * H / (srRatio * srRatio) →
      (gsaCausalMask srRatio H i j = MaskVal.zero ↔
        j < i / (srRatio * H) * srRatio + (i / H + i % H * H) / (srRatio * H) + 1)) ∧
    gsaVisibleCount 2 4 4 5 = gsaTokenVisibleNum 2 4 5 ∧ gsaTokenVisibleNum 2 4 5 = 1 := by
  refine ⟨?_, by decide, by decide⟩
  intro srRatio H i j _ _ _ _
  have hval : gsaTokenVisibleNum srRatio H i =
      i / (srRatio * H) * srRatio + (i / H + i % H * H) / (srRatio * H) + 1 := rfl
  unfold gsaCausalMask
  rw [hval]
  by_cases h : j < i / (srRatio * H) * srRatio + (i / H + i % H * H) / (srRatio * H) + 1
  · rw [if_pos h]; exact iff_of_true rfl h
  · rw [if_neg h]; exact iff_of_false (by simp) h

/-- Concrete instance of `c1_gsa_causal_mask_visibility`: for the 4×4 grid with
`sr_ratio = 2`, reduced key 1 is masked for query 5 since the visible count
is 1. -/
theorem c1_gsa_causal_mask_visibility_witness :
    0 < 2 ∧ 0 < 4 ∧ 5 < 4 * 4 ∧ 1 < 4 * 4 / (2 * 2) ∧
    (gsaCausalMask 2 4 5 1 = MaskVal.zero ↔
      1 < 5 / (2 * 4) * 2 + (5 / 4 + 5 % 4 * 4) / (2 * 4) + 1) :=
  ⟨by decide, by decide, by decide, by decide,
   c1_gsa_causal_mask_visibility.1 2 4 5 1 (by decide) (by decide) (by decide) (by decide)⟩

/-- C2: the cached `casual_mask` of `RAttention` with `casual_attn_2d=True`,
`use_cls_token=False` on a perfect-square token grid of side `H` is `0` at
`(i, j)` exactly when `j / H ≤ i / H` and `j % H ≤ i % H`, `-inf` otherwise;
in particular on the 2×2 grid index 3 sees all four positions and index 0
sees only itself. -/
theorem c2_rattn2d_mask_quadrant :
    (∀ H i j, 0 < H → i < H * H → j < H * H →
      (rattnCasualMask2d H i j = MaskVal.zero ↔ j / H ≤ i / H ∧ j % H ≤ i % H)) ∧
    (∀ j, j < 4 → rattnCasualMask2d 2 3 j = MaskVal.zero) ∧
    rattnCasualMask2d 2 0 0 = MaskVal.zero ∧
    (∀ j, j < 4 → 0 < j → rattnCasualMask2d 2 0 j = MaskVal.negInf) := by
  refine ⟨?_, by decide, by decide, by decide⟩
  intro H i j hH _ _
  unfold rattnCasualMask2d
  by_cases hm : j ∈ rattnVisiblePos H i
  · simp only [if_pos hm, true_iff]
    exact (rattnVisiblePos_mem H i j hH).mp hm
  · simp only [if_neg hm]
    constructor
    · intro hcon; exact absurd hcon (by simp)
    · intro hcon; exact absurd ((rattnVisiblePos_mem H i j hH).mpr hcon) hm

/-- Concrete instance of `c2_rattn2d_mask_quadrant` on the 2×2 grid: position 3
(coords (1,1)) sees position 2 (coords (1,0)). -/
theorem c2_rattn2d_mask_quadrant_witness :
    0 < 2 ∧ 3 < 2 * 2 ∧ 2 < 2 * 2 ∧
    (rattnCasualMask2d 2 3 2 = MaskVal.zero ↔ 2 / 2 ≤ 3 / 2 ∧ 2 % 2 ≤ 3 % 2) :=
  ⟨by decide, by decide, by decide,
   c2_rattn2d_mask_quadrant.1 2 3 2 (by decide) (by decide) (by decide)⟩

/-! ## RAttention mask attribute lifecycle
Embeds the `casual_mask` assignments of `RAttention.__init__`
(`src/deit/my_models.py` lines 334-368) and the mask-addition step of
`RAttention.forward` (lines 388-389).  A Python attribute that was never
assigned is modelled as `none`; reading it raises `AttributeError`, modelled
as a `none` result of the step that reads it. -/

/-- `create_causal_mask` (lines 309-321): an upper-triangular `-inf` above the
diagonal, `0` on and below it. -/
def createCausalMask (i j : ℕ) : MaskVal :=
  if i < j then .negInf else .zero

/-- Padding a mask with an all-zero row and column at index 0, as done for the
class token: `new_mask` is filled with `0.` and the original mask is copied
into `new_mask[1:, 1:]`. -/
def padClsMask (m : ℕ → ℕ → MaskVal) (i j : ℕ) : MaskVal :=
  if 1 ≤ i ∧ 1 ≤ j then m (i - 1) (j - 1) else .zero

/-- The `casual_mask` attribute after `RAttention.__init__`: the 2D branch
always assigns it; the 1D branch builds a local `casual_mask` but assigns the
attribute only under `use_cls_token`; otherwise it is never assigned. -/
def rattnInitCasualMask (casual2d casual1d useCls : Bool) (tokenNum : ℕ) :
    Option (ℕ → ℕ → MaskVal) :=
  if casual2d then
    some (if useCls then padClsMask (rattnCasualMask2d (Nat.sqrt tokenNum))
          else rattnCasualMask2d (Nat.sqrt tokenNum))
  else if casual1d then
    (if useCls then some (padClsMask createCausalMask) else none)
  else none

/-- The mask-addition step of `RAttention.forward` (with `enable_rpe=True`):
when either causal flag is set the step reads `self.casual_mask` and applies
it; reading a never-assigned attribute fails (`none`).  The result
`some maskUsed` carries the mask that was added (`some maskUsed = some none`
when no mask is added at all). -/
def rattnForwardMaskLookup (maskAttr : Option (ℕ → ℕ → MaskVal))
    (casual2d casual1d : Bool) : Option (Option (ℕ → ℕ → MaskVal)) :=
  if casual2d || casual1d then
    match maskAttr with
    | none => none
    | some m => some (some m)
  else some none

/-- C9: with `casual_attn_1d=True` and `use_cls_token=False` the attribute
`casual_mask` is never assigned by `RAttention.__init__`, and every forward
call with `enable_rpe=True` reaches the mask-addition step and fails there
instead of applying a 1D causal mask. -/
theorem c9_rattn1d_mask_never_assigned :
    ∀ tokenNum : ℕ,
      rattnInitCasualMask false true false tokenNum = none ∧
      rattnForwardMaskLookup (rattnInitCasualMask false true false tokenNum) false true =
        none := by
  intro tokenNum
  exact ⟨rfl, rfl⟩

/-! ## Frequency tables
Embeds `precompute_freqs_cis` (lines 201-207), `precompute_freqs_cis_2d`
(lines 209-229) and `precompute_freqs_cis_2d_general` (lines 232-252).
`torch.polar(1, θ)` is the unit phasor `e^{iθ}`.  Python's floor division and
modulo on possibly-negative positions (the class token sits at `-1`) are
`Int.ediv` and `Int.emod`. -/

/-- Row count of the returned table: `end` positions, plus one leading class
slot when `use_cls` is set. -/
def freqsCisRows (endN : ℕ) (useCls : Bool) : ℕ :=
  if useCls then endN + 1 else endN

/-- Complex channel count of a 2D table: `torch.arange(0, dim, 4)[: dim // 4]`
gives `dim / 4` frequencies per axis, interleaved into `2 * (dim / 4)`
channels.  No divisibility check is performed. -/
def freqsCis2dCols (dim : ℕ) : ℕ :=
  2 * (dim / 4)

/-- A frequency table: a `rows × cols` array of complex unit phasors. -/
structure FreqTable where
  rows : ℕ
  cols : ℕ
  entry : ℕ → ℕ → ℂ

/-- 1D angular rate of channel `j`: `1 / theta ^ (2 j / dim)`. -/
noncomputable def rate1d (dim j : ℕ) (theta : ℝ) : ℝ :=
  1 / theta ^ (((2 * j : ℕ) : ℝ) / (dim : ℝ))

/-- 2D angular rate of channel `j`: `1 / theta ^ (4 j / dim)`. -/
noncomputable def rate2d (dim j : ℕ) (theta : ℝ) : ℝ :=
  1 / theta ^ (((4 * j : ℕ) : ℝ) / (dim : ℝ))

/-- `precompute_freqs_cis`: entry `(t, j)` is the unit phasor at phase
`(t * scale) * rate1d dim j theta`. -/
noncomputable def precomputeFreqsCis (dim endN : ℕ) (theta scale : ℝ) : FreqTable :=
  { rows := endN
    cols := dim / 2
    entry := fun t j =>
      Complex.exp ((((t : ℝ) * scale * rate1d dim j theta : ℝ) : ℂ) * Complex.I) }

/-- `precompute_freqs_cis_2d`: positions decompose as `x = pos % H`,
`y = pos / H` with `H = isqrt end`; even channels carry the x phasor, odd
channels the y phasor; the class slot (position `-1`) is overwritten with the
unscaled `cls_pos` coordinate when `cls_pos != -1`. -/
noncomputable def precomputeFreqsCis2d (dim endN : ℕ) (theta scale : ℝ) (useCls : Bool)
    (clsPos : ℤ) : FreqTable :=
  { rows := freqsCisRows endN useCls
    cols := freqsCis2dCols dim
    entry := fun i c =>
      let H : ℤ := (Nat.sqrt endN : ℤ)
      let pos : ℤ := (i : ℤ) - (if useCls then 1 else 0)
      let xPos : ℝ :=
        if useCls ∧ clsPos ≠ -1 ∧ i = 0 then (clsPos : ℝ)
        else ((Int.emod pos H : ℤ) : ℝ) * scale
      let yPos : ℝ :=
        if useCls ∧ clsPos ≠ -1 ∧ i = 0 then (clsPos : ℝ)
        else ((Int.ediv pos H : ℤ) : ℝ) * scale
      let j := c / 2
      Complex.exp
        ((((if c % 2 = 0 then xPos else yPos) * rate2d dim j theta : ℝ) : ℂ) * Complex.I) }

/-- `precompute_freqs_cis_2d_general`: like the 2D table but with an explicit
grid width `W` (defaulting to `isqrt end` when `0`), a coordinate `step` and
`bias`, and the whole coordinate scaled by `scale`. -/
noncomputable def precomputeFreqsCis2dGeneral (dim endN step W : ℕ) (bias theta scale : ℝ)
    (useCls : Bool) : FreqTable :=
  { rows := freqsCisRows endN useCls
    cols := freqsCis2dCols dim
    entry := fun i c =>
      let W' : ℤ := ((if W = 0 then Nat.sqrt endN else W : ℕ) : ℤ)
      let pos : ℤ := (i : ℤ) - (if useCls then 1 else 0)
      let xPos : ℝ := bias + ((Int.emod pos W' : ℤ) : ℝ) * step
      let yPos : ℝ := bias + ((Int.ediv pos W' : ℤ) : ℝ) * step
      let j := c / 2
      Complex.exp
        ((((scale * (if c % 2 = 0 then xPos else yPos)) * rate2d dim j theta : ℝ) : ℂ) *
          Complex.I) }

/-- C8: every entry of the 1D table `precompute_freqs_cis` and of the 2D table
`precompute_freqs_cis_2d` is a unit phasor: its complex magnitude is exactly 1
under exact real arithmetic. -/
theorem c8_freqs_unit_magnitude :
    (∀ (dim endN : ℕ) (theta scale : ℝ) (t j : ℕ),
        t < (precomputeFreqsCis dim endN theta scale).rows →
        j < (precomputeFreqsCis dim endN theta scale).cols →
        Complex.abs ((precomputeFreqsCis dim endN theta scale).entry t j) = 1) ∧
    (∀ (dim endN : ℕ) (theta scale : ℝ) (useCls : Bool) (clsPos : ℤ) (i c : ℕ),
        i < (precomputeFreqsCis2d dim endN theta scale useCls clsPos).rows →
        c < (precomputeFreqsCis2d dim endN theta scale useCls clsPos).cols →
        Complex.abs ((precomputeFreqsCis2d dim endN theta scale useCls clsPos).entry i c) =
          1) := by
  constructor
  · intro dim endN theta scale t j _ _
    exact Complex.abs_exp_ofReal_mul_I _
  · intro dim endN theta scale useCls clsPos i c _ _
    exact Complex.abs_exp_ofReal_mul_I _

/-- Concrete instance of `c8_freqs_unit_magnitude` at `dim = 4`, four
positions, default `theta = 10000`, `scale = 1`. -/
theorem c8_freqs_unit_magnitude_witness :
    0 < (precomputeFreqsCis 4 4 10000 1).rows ∧
    0 < (precomputeFreqsCis 4 4 10000 1).cols ∧
    Complex.abs ((precomputeFreqsCis 4 4 10000 1).entry 0 0) = 1 ∧
    Complex.abs ((precomputeFreqsCis2d 4 4 10000 1 false 0).entry 0 0) = 1 :=
  ⟨by decide, by decide,
   c8_freqs_unit_magnitude.1 4 4 10000 1 0 0 (by decide) (by decide),
   c8_freqs_unit_magnitude.2 4 4 10000 1 false 0 0 0 (by decide) (by decide)⟩

/-- C4 counterexample: with `dim = 6` (not a multiple of 4) the 2D table
builders do not fail: they return a table with the full 4 position rows but
only 2 complex channels, covering 4 of the 6 real channels — a silent
truncation. -/
theorem c4_counterexample :
    ¬(6 % 4 = 0) ∧
    (precomputeFreqsCis2d 6 4 10000 1 false 0).rows = 4 ∧
    (precomputeFreqsCis2d 6 4 10000 1 false 0).cols = 2 ∧
    (precomputeFreqsCis2dGeneral 6 4 1 0 0 10000 1 false).cols = 2 ∧
    2 * (precomputeFreqsCis2d 6 4 10000 1 false 0).cols < 6 := by
  refine ⟨by decide, rfl, rfl, rfl, ?_⟩
  show 2 * freqsCis2dCols 6 < 6
  decide

/-- C4 amended: for `dim` not a multiple of 4, `precompute_freqs_cis_2d` and
`precompute_freqs_cis_2d_general` do not fail; they silently return a table
with `2 * (dim / 4)` complex channels, which cover strictly fewer than `dim`
real channels. -/
theorem c4_truncation_amended :
    ∀ (dim endN step W : ℕ) (bias theta scale : ℝ) (useCls : Bool) (clsPos : ℤ),
      dim % 4 ≠ 0 →
      (precomputeFreqsCis2d dim endN theta scale useCls clsPos).cols = 2 * (dim / 4) ∧
      (precomputeFreqsCis2dGeneral dim endN step W bias theta scale useCls).cols =
        2 * (dim / 4) ∧
      2 * (precomputeFreqsCis2d dim endN theta scale useCls clsPos).cols < dim := by
  intro dim endN step W bias theta scale useCls clsPos h
  refine ⟨rfl, rfl, ?_⟩
  show 2 * (2 * (dim / 4)) < dim
  omega

/-- Concrete instance of `c4_truncation_amended` at `dim = 6`. -/
theorem c4_truncation_amended_witness :
    6 % 4 ≠ 0 ∧
    ((precomputeFreqsCis2d 6 4 10000 1 false 0).cols = 2 * (6 / 4) ∧
     (precomputeFreqsCis2dGeneral 6 4 1 0 0 10000 1 false).cols = 2 * (6 / 4) ∧
     2 * (precomputeFreqsCis2d 6 4 10000 1 false 0).cols < 6) :=
  ⟨by decide, c4_truncation_amended 6 4 1 0 0 10000 1 false 0 (by decide)⟩

/-! ## GSAttention rotary-table cache
Embeds the lazy-build/invalidate logic for `q_freqs_cis` in
`GSAttention.forward` (`src/deit/my_models.py` lines 628-632).  The cached
attribute is `none` before the first build; the `else` branch unconditionally
reads `self.q_freqs_cis.shape`, which on a still-`None` cache raises — the
step result `none` models that failure. -/

/-- One cache update: build when the cache is empty and `rpe_dim > 0`;
otherwise compare the current token count `N` with the cached row count and
rebuild on mismatch.  With an empty cache and `rpe_dim = 0` the row-count read
dereferences `None` and fails. -/
noncomputable def gsaQFreqsUpdate (cache : Option FreqTable) (rpeDim N W : ℕ)
    (theta scale : ℝ) (useCls : Bool) : Option FreqTable :=
  match cache with
  | none =>
      if 0 < rpeDim then
        some (precomputeFreqsCis2dGeneral rpeDim N 1 W 0 theta scale useCls)
      else none
  | some t =>
      if N ≠ t.rows then
        some (precomputeFreqsCis2dGeneral rpeDim N 1 W 0 theta scale useCls)
      else some t

/-- `rpe_dim = int(dim // num_heads * rpe_ratio)` of `GSAttention.forward`. -/
def gsaRpeDim (dim numHeads : ℕ) (rpeRatio : ℚ) : ℕ :=
  (⌊((dim / numHeads : ℕ) : ℚ) * rpeRatio⌋).toNat

/-- C10: when `rpe_ratio = 0` (so `rpe_dim = 0`), the first `GSAttention`
forward call fails while reading `self.q_freqs_cis.shape` on the still-`None`
cache: the guarded branch does not build the table, and the `else` branch
dereferences it; rotary embedding is not simply skipped. -/
theorem c10_gsa_rpe_dim_zero_crash :
    ∀ (dim numHeads N W : ℕ) (theta scale : ℝ) (useCls : Bool),
      gsaRpeDim dim numHeads 0 = 0 ∧
      gsaQFreqsUpdate none (gsaRpeDim dim numHeads 0) N W theta scale useCls = none := by
  intro dim numHeads N W theta scale useCls
  have h0 : gsaRpeDim dim numHeads 0 = 0 := by
    simp [gsaRpeDim]
  exact ⟨h0, by rw [h0]; rfl⟩

/-- C6 counterexample: invalidation is keyed on the token count alone.  Build
the `q_freqs_cis` cache for a 16-token `8×2` grid (`N = 16`, `W = 2`), then
call with a 16-token `4×4` grid (`N = 16`, `W = 4`): the row-count check
passes and the stale `W = 2` table is applied, although the table for the
current grid differs from it already at position 2, channel 0. -/
theorem c6_counterexample :
    gsaQFreqsUpdate (gsaQFreqsUpdate none 4 16 2 10000 1 false) 4 16 4 10000 1 false =
      some (precomputeFreqsCis2dGeneral 4 16 1 2 0 10000 1 false) ∧
    (precomputeFreqsCis2dGeneral 4 16 1 2 0 10000 1 false).entry 2 0 ≠
      (precomputeFreqsCis2dGeneral 4 16 1 4 0 10000 1 false).entry 2 0 := by
  constructor
  · rfl
  · have hrate : rate2d 4 0 10000 = 1 := by
      norm_num [rate2d]
    have h22 : Int.emod 2 2 = 0 := by decide
    have hE2 : (precomputeFreqsCis2dGeneral 4 16 1 2 0 10000 1 false).entry 2 0 = 1 := by
      simp [precomputeFreqsCis2dGeneral, h22]
    have h24 : Int.emod 2 4 = 2 := by decide
    have hE4 : (precomputeFreqsCis2dGeneral 4 16 1 4 0 10000 1 false).entry 2 0 =
        Complex.exp ((2 : ℝ) * Complex.I) := by
      simp [precomputeFreqsCis2dGeneral, h24, hrate]
    rw [hE2, hE4]
    intro heq
    have h2 := congrArg Complex.im heq
    rw [Complex.one_im, Complex.exp_ofReal_mul_I_im] at h2
    have hpos : 0 < Real.sin 2 :=
      Real.sin_pos_of_pos_of_lt_pi (by norm_num) (by linarith [Real.pi_gt_three])
    linarith

/-- C6 amended: the `q_freqs_cis` cache of `GSAttention` is invalidated by the
row-count comparison only: a call whose token count `N` differs from the
cached table's row count rebuilds the table for the current `N` and `W`,
while a call with matching token count reuses the cached table unchanged —
even if the grid width `W` has changed. -/
theorem c6_cache_invalidation_amended :
    ∀ (t : FreqTable) (rpeDim N W : ℕ) (theta scale : ℝ) (useCls : Bool),
      (N ≠ t.rows →
        gsaQFreqsUpdate (some t) rpeDim N W theta scale useCls =
          some (precomputeFreqsCis2dGeneral rpeDim N 1 W 0 theta scale useCls)) ∧
      (N = t.rows →
        gsaQFreqsUpdate (some t) rpeDim N W theta scale useCls = some t) := by
  intro t rpeDim N W theta scale useCls
  constructor
  · intro h
    simp [gsaQFreqsUpdate, h]
  · intro h
    simp [gsaQFreqsUpdate, h]

/-- Concrete instance of `c6_cache_invalidation_amended`: a cached 9-row table
is rebuilt when the call presents 16 tokens. -/
theorem c6_cache_invalidation_amended_witness :
    16 ≠ (precomputeFreqsCis2dGeneral 4 9 1 3 0 10000 1 false).rows ∧
    gsaQFreqsUpdate (some (precomputeFreqsCis2dGeneral 4 9 1 3 0 10000 1 false))
        4 16 3 10000 1 false =
      some (precomputeFreqsCis2dGeneral 4 16 1 3 0 10000 1 false) :=
  ⟨by decide,
   (c6_cache_invalidation_amended (precomputeFreqsCis2dGeneral 4 9 1 3 0 10000 1 false)
      4 16 3 10000 1 false).1 (by decide)⟩

/-! ## Attention cores
One batch element, one query head at a time.  `q k v : ℕ → ℕ → ℝ` map a
position and a channel below `head_dim` to a value; multi-head tensors add a
leading head index. -/

/-- The scale factor `head_dim ** -0.5`. -/
noncomputable def attnScale (hd : ℕ) : ℝ :=
  (hd : ℝ) ^ (-(1 / 2) : ℝ)

/-- Dot product of two `head_dim`-wide vectors. -/
noncomputable def dotProd (hd : ℕ) (f g : ℕ → ℝ) : ℝ :=
  ∑ c ∈ Finset.range hd, f c * g c

/-- Softmax weight of index `s` among logits `l 0, …, l (n-1)`. -/
noncomputable def softmaxW (n : ℕ) (l : ℕ → ℝ) (s : ℕ) : ℝ :=
  Real.exp (l s) / ∑ u ∈ Finset.range n, Real.exp (l u)

/-- Unmasked scaled-dot-product attention for one head: the reference path of
`RAttention.forward` (lines 387-396) with both causal flags off —
`attn = (q @ k^T) * scale`, softmax, `attn @ v`. -/
noncomputable def plainSDPA (hd T : ℕ) (q k v : ℕ → ℕ → ℝ) (t c : ℕ) : ℝ :=
  ∑ s ∈ Finset.range T,
    softmaxW T (fun u => attnScale hd * dotProd hd (q t) (k u)) s * v s c

/-- Modelled from the spec: `torch.nn.functional.scaled_dot_product_attention`
is external; per its documented contract, with `attn_mask=None`,
`dropout_p=0.0`, the given `scale` and `is_causal=True` it computes
dot-product softmax attention where query `t` attends to keys `s ≤ t` only.
This is the fallback path of `GQA.scaled_dot_product_attention`
(lines 844-847), which passes `is_causal = (mask is None)`. -/
noncomputable def causalSDPA (hd T : ℕ) (q k v : ℕ → ℕ → ℝ) (t c : ℕ) : ℝ :=
  ∑ s ∈ Finset.range (min (t + 1) T),
    softmaxW (min (t + 1) T) (fun u => attnScale hd * dotProd hd (q t) (k u)) s * v s c

/-- Modelled from the spec: `flash_attn_func` is an external fused-attention
kernel, missing from the repository.  `GQA.scaled_dot_product_attention`
(lines 837-843) calls it with `dropout_p=0.0`,
`softmax_scale = head_dim ** -0.5` and `causal=False`; per the spec's
fused-path contract it computes the dot-product-softmax attention with that
scale and no mask. -/
noncomputable def flashAttnOut (hd T : ℕ) (q k v : ℕ → ℕ → ℝ) (t c : ℕ) : ℝ :=
  plainSDPA hd T q k v t c

/-- Per-query-head attention of `GQA.forward` (lines 786-824): the projected
tensor is split into `query_groups` groups of `num_heads / query_groups`
query heads plus one key and one value head each; after the
`expand`/`reshape` (or, for `query_groups = 1`, broadcasting over the single
key/value head), query head `h` attends with key/value head
`h / (num_heads / query_groups)`, through the fallback
`scaled_dot_product_attention` with mask `None`. -/
noncomputable def gqaAttnOut (numHeads queryGroups hd T : ℕ) (q k v : ℕ → ℕ → ℕ → ℝ)
    (h t c : ℕ) : ℝ :=
  causalSDPA hd T (q h) (k (h / (numHeads / queryGroups)))
    (v (h / (numHeads / queryGroups))) t c

/-- The reference multi-head attention path (`RAttention.forward`): `h`
independent query, key and value heads; query head `h` attends with its own
key/value head `h`, unmasked. -/
noncomputable def rattnAttnCore (hd T : ℕ) (q k v : ℕ → ℕ → ℕ → ℝ) (h t c : ℕ) : ℝ :=
  plainSDPA hd T (q h) (k h) (v h) t c

theorem softmaxW_single (l : ℕ → ℝ) : softmaxW 1 l 0 = 1 := by
  simp [softmaxW, Finset.sum_range_one, div_self (Real.exp_ne_zero _)]

theorem plainSDPA_single (hd : ℕ) (q k v : ℕ → ℕ → ℝ) (c : ℕ) :
    plainSDPA hd 1 q k v 0 c = v 0 c := by
  simp [plainSDPA, Finset.sum_range_one, softmaxW_single]

theorem causalSDPA_single (hd T : ℕ) (q k v : ℕ → ℕ → ℝ) (c : ℕ) (hT : 0 < T) :
    causalSDPA hd T q k v 0 c = v 0 c := by
  have hmin : min (0 + 1) T = 1 := by omega
  simp [causalSDPA, hmin, Finset.sum_range_one, softmaxW_single]

/-- C3 counterexample: with `query_groups = 1` and `num_heads = 2` the GQA
output is not that of standard multi-head attention with two independent
key/value heads.  On a single-position input with zero queries and keys and
per-head values `v h = h`, query head 1 returns value head 0 (the shared
key/value head) under GQA, but value head 1 under the reference path. -/
theorem c3_counterexample :
    gqaAttnOut 2 1 1 1 (fun _ _ _ => 0) (fun _ _ _ => 0) (fun h _ _ => (h : ℝ)) 1 0 0 ≠
      rattnAttnCore 1 1 (fun _ _ _ => 0) (fun _ _ _ => 0) (fun h _ _ => (h : ℝ)) 1 0 0 := by
  have h1 : gqaAttnOut 2 1 1 1 (fun _ _ _ => 0) (fun _ _ _ => 0)
      (fun h _ _ => (h : ℝ)) 1 0 0 = 0 := by
    unfold gqaAttnOut
    rw [causalSDPA_single _ _ _ _ _ _ (by decide)]
    norm_num
  have h2 : rattnAttnCore 1 1 (fun _ _ _ => 0) (fun _ _ _ => 0)
      (fun h _ _ => (h : ℝ)) 1 0 0 = 1 := by
    unfold rattnAttnCore
    rw [plainSDPA_single]
    norm_num
  rw [h1, h2]
  norm_num

/-- C3 amended: with `query_groups = num_heads`, `GQA.forward` routes each
query head `h` to its own key/value head `h` — the independent-head structure
of standard multi-head attention (the code's `expand` is a no-op there);
with `query_groups = 1` every query head shares the single key/value head 0
(multi-query attention), which is why the output is not in general identical
to standard multi-head attention. -/
theorem c3_gqa_head_routing_amended :
    (∀ (numHeads hd T : ℕ) (q k v : ℕ → ℕ → ℕ → ℝ) (h t c : ℕ),
      h < numHeads → 0 < numHeads →
      gqaAttnOut numHeads numHeads hd T q k v h t c =
        causalSDPA hd T (q h) (k h) (v h) t c) ∧
    (∀ (numHeads hd T : ℕ) (q k v : ℕ → ℕ → ℕ → ℝ) (h t c : ℕ),
      h < numHeads →
      gqaAttnOut numHeads 1 hd T q k v h t c =
        causalSDPA hd T (q h) (k 0) (v 0) t c) := by
  constructor
  · intro numHeads hd T q k v h t c _ hpos
    unfold gqaAttnOut
    rw [Nat.div_self hpos, Nat.div_one]
  · intro numHeads hd T q k v h t c hlt
    unfold gqaAttnOut
    rw [Nat.div_one, Nat.div_eq_of_lt hlt]

/-- Concrete instance of `c3_gqa_head_routing_amended` with two heads. -/
theorem c3_gqa_head_routing_amended_witness :
    1 < 2 ∧ 0 < 2 ∧
    gqaAttnOut 2 2 1 1 (fun _ _ _ => 0) (fun _ _ _ => 0) (fun h _ _ => (h : ℝ)) 1 0 0 =
      causalSDPA 1 1 ((fun (_ _ _ : ℕ) => (0 : ℝ)) 1) ((fun (_ _ _ : ℕ) => (0 : ℝ)) 1)
        ((fun (h _ _ : ℕ) => (h : ℝ)) 1) 0 0 ∧
    gqaAttnOut 2 1 1 1 (fun _ _ _ => 0) (fun _ _ _ => 0) (fun h _ _ => (h : ℝ)) 1 0 0 =
      causalSDPA 1 1 ((fun (_ _ _ : ℕ) => (0 : ℝ)) 1) ((fun (_ _ _ : ℕ) => (0 : ℝ)) 0)
        ((fun (h _ _ : ℕ) => (h : ℝ)) 0) 0 0 :=
  ⟨by decide, by decide,
   c3_gqa_head_routing_amended.1 2 1 1 _ _ _ 1 0 0 (by decide) (by decide),
   c3_gqa_head_routing_amended.2 2 1 1 _ _ _ 1 0 0 (by decide)⟩

/-- C5 counterexample: with `mask = None` the fused path and the fallback path
of `GQA.scaled_dot_product_attention` disagree on two positions, because the
fused call passes `causal=False` while the fallback passes `is_causal=True`:
with zero queries/keys and values `v s = s`, the fused output at query 0 is
the average 1/2, the fallback output is 0. -/
theorem c5_counterexample :
    flashAttnOut 1 2 (fun _ _ => 0) (fun _ _ => 0) (fun s _ => (s : ℝ)) 0 0 ≠
      causalSDPA 1 2 (fun _ _ => 0) (fun _ _ => 0) (fun s _ => (s : ℝ)) 0 0 := by
  have h1 : flashAttnOut 1 2 (fun _ _ => 0) (fun _ _ => 0) (fun s _ => (s : ℝ)) 0 0 =
      1 / 2 := by
    simp [flashAttnOut, plainSDPA, softmaxW, dotProd, Finset.sum_range_succ,
      Real.exp_zero]
  have h2 : causalSDPA 1 2 (fun _ _ => 0) (fun _ _ => 0) (fun s _ => (s : ℝ)) 0 0 = 0 := by
    rw [causalSDPA_single _ _ _ _ _ _ (by decide)]
    norm_num
  rw [h1, h2]
  norm_num

/-- C5 amended: the fused path uses the same scale `head_dim ** -0.5` and zero
dropout as the fallback, but not the same masking: with `mask = None` the
fallback applies a causal mask (`is_causal=True`) while the fused path applies
none (`causal=False`); the two paths coincide on single-position sequences. -/
theorem c5_flash_fallback_amended :
    ∀ (hd : ℕ) (q k v : ℕ → ℕ → ℝ) (c : ℕ),
      flashAttnOut hd 1 q k v 0 c = causalSDPA hd 1 q k v 0 c := by
  intro hd q k v c
  rw [flashAttnOut, plainSDPA_single, causalSDPA_single _ _ _ _ _ _ (by decide)]

/-! ## Partial rotary application
Embeds the rotate-then-concatenate step shared by `RAttention.forward`
(lines 377-381) and `GQA.forward` (lines 814-817):
`q_rot = apply_rotary_emb(q[..., :rope_dim], …)` followed by
`q = torch.cat((q_rot, q[..., rope_dim:]), dim=-1)`. -/

/-- One head vector's rotated channels: consecutive channel pairs
`(2p, 2p+1)` are read as a complex number (`torch.view_as_complex`),
multiplied by the broadcast-selected phasor `freq p` for this position and
head, and written back as real and imaginary parts
(`torch.view_as_real(...).flatten`). -/
noncomputable def ropeRotate (freq : ℕ → ℂ) (v : ℕ → ℝ) (c : ℕ) : ℝ :=
  let z := (⟨v (2 * (c / 2)), v (2 * (c / 2) + 1)⟩ : ℂ) * freq (c / 2)
  if c % 2 = 0 then z.re else z.im

/-- `torch.cat` of an `n`-wide vector with a tail vector along the channel
axis. -/
def catVec (n : ℕ) (f g : ℕ → ℝ) (c : ℕ) : ℝ :=
  if c < n then f c else g (c - n)

/-- The partially-rotated head vector: rotated width-`rd` head of the vector,
concatenated with its untouched channels from `rd` on. -/
noncomputable def ropeApplyConcat (rd : ℕ) (freq : ℕ → ℂ) (v : ℕ → ℝ) : ℕ → ℝ :=
  catVec rd (ropeRotate freq v) (fun c => v (rd + c))

/-- C7: with `rope_dim > 0`, the rotate-and-concatenate step of
`RAttention.forward` / `GQA.forward` leaves every channel in
`[rope_dim, head_dim)` equal to the corresponding channel of the projected
input; only the first `rope_dim` channels are altered. -/
theorem c7_rope_frame (rd hd : ℕ) (freq : ℕ → ℂ) (v : ℕ → ℝ) (c : ℕ)
    (_hrd : 0 < rd) (hc1 : rd ≤ c) (_hc2 : c < hd) :
    ropeApplyConcat rd freq v c = v c := by
  unfold ropeApplyConcat catVec
  rw [if_neg (by omega)]
  show v (rd + (c - rd)) = v c
  congr 1
  omega

/-- Concrete instance of `c7_rope_frame`: channel 3 of a 4-wide head with
`rope_dim = 2` passes through unchanged. -/
theorem c7_rope_frame_witness :
    0 < 2 ∧ 2 ≤ 3 ∧ 3 < 4 ∧
    ropeApplyConcat 2 (fun _ => Complex.I) (fun c => (c : ℝ)) 3 = ((3 : ℕ) : ℝ) :=
  ⟨by decide, by decide, by decide,
   c7_rope_frame 2 4 (fun _ => Complex.I) (fun c => (c : ℝ)) 3 (by decide) (by decide)
     (by decide)⟩

end VisionLLaMA
